import Mathlib

/-!
Verification of the `FieldDataProcessor` ETL pipeline
(`field_data_processor.py`, `data_ingestion.py`, `config_params.py`).

The pipeline holds a pandas DataFrame (`self.df`) and applies, in order:
`ingest_sql_data` (SQL query → DataFrame), `rename_columns` (swap the two
configured column labels), `apply_corrections` (absolute value on the
`Elevation` column, then a value-map on the `Crop_type` column) and
`weather_station_mapping` (left merge with a fetched CSV on `Field_ID`).

A DataFrame is embedded as a list of column labels plus a list of rows,
each row a list of cell values.  External I/O (the SQL engine, the HTTP
fetch) is embedded as explicit inputs: the query result is passed in as a
`DataFrame`, and the fetched CSV resource as an `Option DataFrame` where
`none` stands for a body that pandas cannot parse (the empty-body case,
which `pd.read_csv` reports as `EmptyDataError`).  Python exception kinds
are embedded as strings: `ValueError` on an empty query result is the
spec's `EmptyResultError` kind, `pd.errors.EmptyDataError` is the spec's
`MalformedResourceError` kind, and pandas `KeyError` / `AttributeError`
keep their own names.
-/

/-- A cell value of a DataFrame: an integer, a string, or a null (NaN). -/
inductive Val where
  | int (n : Int)
  | str (s : String)
  | null
deriving DecidableEq

/-- A pandas DataFrame: column labels and rows of cells.  Rows are
rectangular in pandas (each row has one cell per column); theorems state
this as an explicit hypothesis where they need it. -/
structure DataFrame where
  cols : List String
  rows : List (List Val)
deriving DecidableEq

/-- `df[name]` for a column label: the cell data under the first column
bearing `name`, or `none` when no column has that label. -/
def getCol (df : DataFrame) (name : String) : Option (List Val) :=
  (df.cols.findIdx? (fun c => c == name)).map
    (fun i => df.rows.map (fun r => r.getD i Val.null))

/-- The cell of one row under the column labelled `name` (null when the
label is absent or the row is short). -/
def cellAt (cols : List String) (row : List Val) (name : String) : Val :=
  match cols.findIdx? (fun c => c == name) with
  | some i => row.getD i Val.null
  | none => Val.null

/-- `df[name] = df[name].apply f` restricted to one row: apply `f` to the
cells sitting under a column labelled `name`, leave the rest alone. -/
def mapCell (cols : List String) (name : String) (f : Val → Val) (row : List Val) :
    List Val :=
  List.zipWith (fun c v => if c = name then f v else v) cols row

/-- `Series.abs()` on one cell: `|n|` on integers, identity otherwise
(pandas keeps NaN as NaN). -/
def absVal : Val → Val
  | .int n => .int |n|
  | v => v

/-- The lambda of `apply_corrections`:
`lambda crop: self.values_to_rename.get(crop, crop)` — dictionary lookup
with the original value as the default. -/
def applyMap (m : List (Val × Val)) (v : Val) : Val :=
  (m.lookup v).getD v

/-- `df.empty` in pandas: true when either axis has length zero. -/
def dfEmpty (df : DataFrame) : Bool :=
  df.rows.isEmpty || df.cols.isEmpty

/-- The scratch-name loop of `rename_columns`:
`while temp_name in self.df.columns: temp_name += "_"`.  The Python loop is
unbounded; here it carries fuel, and `genTemp` supplies `cols.length + 1`
units, which `genTemp_not_mem` proves is always enough, so the two agree. -/
def genTempAux : Nat → List String → String → String
  | 0, _, t => t
  | n + 1, cols, t => if t ∈ cols then genTempAux n cols (t ++ "_") else t

/-- The scratch name `rename_columns` actually uses for a given set of
column labels. -/
def genTemp (cols : List String) : String :=
  genTempAux (cols.length + 1) cols "__temp_name_for_swap__"

/-- `FieldDataProcessor.rename_columns` on the DataFrame, with the two
configured labels as arguments (`column1` is the first key of
`columns_to_rename`, `column2` its first value):
`df.rename(columns={column1: temp, column2: column1})` followed by
`df.rename(columns={temp: column2})`.  pandas `rename` maps each label
through the dictionary, leaving labels that are not keys unchanged, and
raises nothing for keys that match no label.  Cell data is untouched. -/
def rename_columns (c1 c2 : String) (df : DataFrame) : DataFrame :=
  let temp := genTemp df.cols
  { cols := (df.cols.map (fun c => if c = c2 then c1 else if c = c1 then temp else c)).map
      (fun c => if c = temp then c2 else c),
    rows := df.rows }

/-- First statement of `apply_corrections`:
`self.df[abs_column] = self.df[abs_column].abs()`. -/
def sign_correction (ac : String) (df : DataFrame) : DataFrame :=
  { df with rows := df.rows.map (mapCell df.cols ac absVal) }

/-- Second statement of `apply_corrections`:
`self.df[column_name] = self.df[column_name].apply(lambda crop: self.values_to_rename.get(crop, crop))`. -/
def value_correction (m : List (Val × Val)) (cn : String) (df : DataFrame) : DataFrame :=
  { df with rows := df.rows.map (mapCell df.cols cn (applyMap m)) }

/-- `FieldDataProcessor.apply_corrections(column_name, abs_column)` as a
function on the DataFrame: reading `self.df[abs_column]` raises `KeyError`
(here `none`) when the label is missing, then the same for `column_name`
after the absolute-value assignment already happened. -/
def apply_corrections (m : List (Val × Val)) (cn ac : String) (df : DataFrame) :
    Option DataFrame :=
  if ac ∈ df.cols then
    let d1 := sign_correction ac df
    if cn ∈ d1.cols then some (value_correction m cn d1) else none
  else none

/-- The non-key cells of one row of the right-hand table of a merge. -/
def nonKeyCells (cols : List String) (key : String) (row : List Val) : List Val :=
  (cols.zip row).filterMap (fun p => if p.1 = key then none else some p.2)

/-- `left.merge(right, on=key, how="left")`: every left row is kept; a left
row gains one output row per matching right row (fan-out), or a single row
padded with nulls when no right row matches on `key`.  Overlapping non-key
labels get pandas' default suffixes. -/
def merge (left right : DataFrame) (key : String) : DataFrame :=
  let rcols := right.cols.filter (fun c => !(c == key))
  { cols := left.cols.map
        (fun c => if !(c == key) && right.cols.contains c then c ++ "_x" else c)
      ++ rcols.map (fun c => if left.cols.contains c then c ++ "_y" else c),
    rows := (left.rows.map (fun r =>
        let k := cellAt left.cols r key
        let ms := right.rows.filter (fun rr => cellAt right.cols rr key == k)
        if ms.isEmpty then [r ++ List.replicate rcols.length Val.null]
        else ms.map (fun rr => r ++ nonKeyCells right.cols key rr))).flatten }

/-- `query_data` of `data_ingestion.py` on an already-computed query
result: raises `ValueError` — the spec's `EmptyResultError` kind — when
`df.empty`, and returns the DataFrame otherwise. -/
def query_data (result : DataFrame) : Except String DataFrame :=
  if dfEmpty result then .error "EmptyResultError" else .ok result

/-- `read_from_web_CSV` of `data_ingestion.py` on an already-fetched
resource: `none` stands for a body `pd.read_csv` cannot parse (the
empty-body case), reported as `EmptyDataError` — the spec's
`MalformedResourceError` kind. -/
def read_from_web_CSV (resource : Option DataFrame) : Except String DataFrame :=
  match resource with
  | some d => .ok d
  | none => .error "MalformedResourceError"

/-- The mutable state of a `FieldDataProcessor` instance: `self.df`,
initialised to `None` in `__init__`. -/
structure FDPState where
  df : Option DataFrame
deriving DecidableEq

/-- `ingest_sql_data`: on success `self.df` is replaced by the query
result; on failure the exception propagates and `self.df` is untouched
(the assignment never ran). -/
def ingest_step (queryResult : DataFrame) (s : FDPState) : FDPState × Option String :=
  match query_data queryResult with
  | .error e => (s, some e)
  | .ok d => ({ df := some d }, none)

/-- `rename_columns` as a pipeline step.  Reading `self.df.columns` on an
unset DataFrame raises `AttributeError`. -/
def rename_step (c1 c2 : String) (s : FDPState) : FDPState × Option String :=
  match s.df with
  | none => (s, some "AttributeError")
  | some d => ({ df := some (rename_columns c1 c2 d) }, none)

/-- `apply_corrections` as a pipeline step.  A missing `abs_column` raises
`KeyError` before anything mutates; a missing `column_name` raises
`KeyError` after the absolute-value assignment already updated `self.df`. -/
def corrections_step (m : List (Val × Val)) (cn ac : String) (s : FDPState) :
    FDPState × Option String :=
  match s.df with
  | none => (s, some "AttributeError")
  | some d =>
    if ac ∈ d.cols then
      let d1 := sign_correction ac d
      if cn ∈ d1.cols then ({ df := some (value_correction m cn d1) }, none)
      else ({ df := some d1 }, some "KeyError")
    else (s, some "KeyError")

/-- `weather_station_mapping` as a pipeline step: the fetch runs first, so
a fetch failure leaves `self.df` untouched; on success the merge on
`Field_ID` replaces `self.df` (pandas raises `KeyError` when either side
lacks the key column). -/
def weather_step (resource : Option DataFrame) (s : FDPState) :
    FDPState × Option String :=
  match read_from_web_CSV resource with
  | .error e => (s, some e)
  | .ok w =>
    match s.df with
    | none => (s, some "AttributeError")
    | some d =>
      if "Field_ID" ∈ d.cols ∧ "Field_ID" ∈ w.cols then
        ({ df := some (merge d w "Field_ID") }, none)
      else (s, some "KeyError")

/-- `FieldDataProcessor.process`: the four steps in order, each failure
aborting the rest and leaving `self.df` in the state the failing step left
it.  `apply_corrections` is called with no arguments, so its Python
defaults `column_name='Crop_type'` and `abs_column='Elevation'` are what
every configuration gets. -/
def process (c1 c2 : String) (m : List (Val × Val)) (queryResult : DataFrame)
    (resource : Option DataFrame) (s : FDPState) : FDPState × Option String :=
  match ingest_step queryResult s with
  | (s1, some e) => (s1, some e)
  | (s1, none) =>
    match rename_step c1 c2 s1 with
    | (s2, some e) => (s2, some e)
    | (s2, none) =>
      match corrections_step m "Crop_type" "Elevation" s2 with
      | (s3, some e) => (s3, some e)
      | (s3, none) =>
        match weather_step resource s3 with
        | (s4, some e) => (s4, some e)
        | (s4, none) => (s4, none)

/-- Sample field table used by the witnesses: the shape the pipeline sees
after ingestion, with `Annual_yield` and `Crop_type` mutually mislabeled. -/
def sampleDF : DataFrame :=
  { cols := ["Field_ID", "Annual_yield", "Crop_type", "Elevation"],
    rows := [[.int 1, .str "cassaval", .int 100, .int (-5)],
             [.int 2, .str "tea", .int 200, .int 7],
             [.int 3, .str "wheat", .int 300, .int 0]] }

/-- The configured `values_to_rename` map of `config_params.py`. -/
def sampleMap : List (Val × Val) :=
  [(.str "cassaval", .str "cassava"), (.str "wheatn", .str "wheat"),
   (.str "teaa", .str "tea")]

/-- Sample weather-station mapping table covering `Field_ID` 1 and 2 only. -/
def sampleWeather : DataFrame :=
  { cols := ["Field_ID", "Weather_station"],
    rows := [[.int 1, .int 9], [.int 2, .int 11]] }

theorem length_filter_le_of_imp {α : Type} {p q : α → Bool}
    (hpq : ∀ x, q x = true → p x = true) :
    ∀ l : List α, (l.filter q).length ≤ (l.filter p).length := by
  intro l
  induction l with
  | nil => exact le_refl _
  | cons b l ih =>
    rw [List.filter_cons, List.filter_cons]
    by_cases hq : q b = true
    · rw [if_pos hq, if_pos (hpq b hq), List.length_cons, List.length_cons]
      omega
    · rw [if_neg hq]
      by_cases hp : p b = true
      · rw [if_pos hp, List.length_cons]
        omega
      · rw [if_neg hp]
        exact ih

theorem length_filter_lt_of_imp {α : Type} {p q : α → Bool}
    (hpq : ∀ x, q x = true → p x = true) {a : α}
    (hpa : p a = true) (hqa : q a = false) :
    ∀ {l : List α}, a ∈ l → (l.filter q).length < (l.filter p).length := by
  intro l hal
  induction l with
  | nil => cases hal
  | cons b l ih =>
    rcases List.mem_cons.mp hal with rfl | hmem
    · have hle := length_filter_le_of_imp hpq l
      have hqa' : ¬q a = true := by simp [hqa]
      rw [List.filter_cons, List.filter_cons, if_pos hpa, if_neg hqa',
        List.length_cons]
      omega
    · by_cases hq : q b = true
      · have hlt := ih hmem
        rw [List.filter_cons, List.filter_cons, if_pos hq, if_pos (hpq b hq),
          List.length_cons, List.length_cons]
        omega
      · have hlt := ih hmem
        rw [List.filter_cons, List.filter_cons, if_neg hq]
        by_cases hp : p b = true
        · rw [if_pos hp, List.length_cons]
          omega
        · rw [if_neg hp]
          exact hlt

theorem genTempAux_not_mem :
    ∀ (n : Nat) (cols : List String) (t : String),
      (cols.filter (fun c => t.length ≤ c.length)).length < n →
      genTempAux n cols t ∉ cols := by
  intro n
  induction n with
  | zero => intro cols t h; omega
  | succ n ih =>
    intro cols t h
    by_cases hmem : t ∈ cols
    · rw [genTempAux, if_pos hmem]
      apply ih
      have hlt : (cols.filter (fun c => (t ++ "_").length ≤ c.length)).length <
          (cols.filter (fun c => t.length ≤ c.length)).length := by
        apply length_filter_lt_of_imp _ _ _ hmem
        · intro x hx
          have hx' : (t ++ "_").length ≤ x.length := of_decide_eq_true hx
          have : t.length ≤ (t ++ "_").length := by
            rw [String.length_append]; omega
          exact decide_eq_true (le_trans this hx')
        · exact decide_eq_true (le_refl t.length)
        · apply decide_eq_false
          intro hcon
          rw [String.length_append] at hcon
          have hone : "_".length = 1 := rfl
          omega
      omega
    · rw [genTempAux, if_neg hmem]
      exact hmem

theorem genTemp_not_mem (cols : List String) : genTemp cols ∉ cols := by
  apply genTempAux_not_mem
  have := List.length_filter_le
    (fun c => decide ("__temp_name_for_swap__".length ≤ c.length)) cols
  omega

theorem DataFrame.eq_of_parts {a b : DataFrame} (hc : a.cols = b.cols)
    (hr : a.rows = b.rows) : a = b := by
  cases a; cases b; cases hc; cases hr; rfl

theorem rename_columns_rows (c1 c2 : String) (df : DataFrame) :
    (rename_columns c1 c2 df).rows = df.rows := rfl

theorem rename_columns_cols {c1 c2 : String} (df : DataFrame) (h12 : c1 ≠ c2)
    (h1 : c1 ∈ df.cols) :
    (rename_columns c1 c2 df).cols =
      df.cols.map (fun c => if c = c1 then c2 else if c = c2 then c1 else c) := by
  have htemp : genTemp df.cols ∉ df.cols := genTemp_not_mem df.cols
  have hc1t : c1 ≠ genTemp df.cols := fun he => htemp (he ▸ h1)
  show (df.cols.map _).map _ = _
  rw [List.map_map]
  apply List.map_congr_left
  intro c hc
  have hct : c ≠ genTemp df.cols := fun he => htemp (he ▸ hc)
  simp only [Function.comp_apply]
  by_cases h2 : c = c2
  · subst h2
    simp [hc1t, Ne.symm h12]
  · by_cases hA : c = c1
    · subst hA
      simp [h2]
    · simp [h2, hA, hct]

theorem findIdx?_swap_eq (c1 c2 target source : String) (h : ∀ a : String,
    ((if a = c1 then c2 else if a = c2 then c1 else a) = target) ↔ (a = source))
    (l : List String) :
    List.findIdx? (fun c => c == target)
      (l.map (fun c => if c = c1 then c2 else if c = c2 then c1 else c)) =
    List.findIdx? (fun c => c == source) l := by
  rw [List.findIdx?_map]
  congr 1
  funext a
  simp only [Function.comp, beq_iff_eq]
  exact decide_eq_decide.mpr (h a)

/-- C1: for every table in which both configured rename columns exist,
after `rename_columns` the column bearing the first configured name holds
exactly the cell data that was originally under the second configured
name, and vice versa; the rows — hence every cell value — are unchanged. -/
theorem C1_rename_swaps_data (c1 c2 : String) (df : DataFrame) (h12 : c1 ≠ c2)
    (h1 : c1 ∈ df.cols) (h2 : c2 ∈ df.cols) :
    getCol (rename_columns c1 c2 df) c1 = getCol df c2 ∧
    getCol (rename_columns c1 c2 df) c2 = getCol df c1 ∧
    (rename_columns c1 c2 df).rows = df.rows := by
  refine ⟨?_, ?_, rfl⟩
  · show ((rename_columns c1 c2 df).cols.findIdx? _).map _ = _
    rw [rename_columns_cols df h12 h1]
    rw [findIdx?_swap_eq c1 c2 c1 c2 ?_ df.cols]
    · rfl
    · intro a
      constructor
      · intro ha
        by_cases hA : a = c1
        · rw [if_pos hA] at ha; exact absurd ha.symm h12
        · rw [if_neg hA] at ha
          by_cases hB : a = c2
          · exact hB
          · rw [if_neg hB] at ha; exact absurd ha hA
      · intro ha
        subst ha
        rw [if_neg (Ne.symm h12), if_pos rfl]
  · show ((rename_columns c1 c2 df).cols.findIdx? _).map _ = _
    rw [rename_columns_cols df h12 h1]
    rw [findIdx?_swap_eq c1 c2 c2 c1 ?_ df.cols]
    · rfl
    · intro a
      constructor
      · intro ha
        by_cases hA : a = c1
        · exact hA
        · rw [if_neg hA] at ha
          by_cases hB : a = c2
          · rw [if_pos hB] at ha; exact absurd ha h12
          · rw [if_neg hB] at ha; exact absurd ha hB
      · intro ha
        subst ha
        rw [if_pos rfl]

/-- Witness for C1 at a concrete table with the configured pair
(`Annual_yield`, `Crop_type`). -/
theorem C1_rename_swaps_data_witness :
    ("Annual_yield" ≠ "Crop_type" ∧ "Annual_yield" ∈ sampleDF.cols ∧
      "Crop_type" ∈ sampleDF.cols) ∧
    (getCol (rename_columns "Annual_yield" "Crop_type" sampleDF) "Annual_yield" =
        getCol sampleDF "Crop_type" ∧
      getCol (rename_columns "Annual_yield" "Crop_type" sampleDF) "Crop_type" =
        getCol sampleDF "Annual_yield" ∧
      (rename_columns "Annual_yield" "Crop_type" sampleDF).rows = sampleDF.rows) :=
  ⟨by decide, C1_rename_swaps_data "Annual_yield" "Crop_type" sampleDF
    (by decide) (by decide) (by decide)⟩

/-- C8: applying `rename_columns` twice restores the table exactly — the
operation is an involution on every table containing both configured
columns. -/
theorem C8_rename_involution (c1 c2 : String) (df : DataFrame) (h12 : c1 ≠ c2)
    (h1 : c1 ∈ df.cols) (h2 : c2 ∈ df.cols) :
    rename_columns c1 c2 (rename_columns c1 c2 df) = df := by
  have e1 := rename_columns_cols df h12 h1
  have hc1' : c1 ∈ (rename_columns c1 c2 df).cols := by
    rw [e1]
    refine List.mem_map.mpr ⟨c2, h2, ?_⟩
    rw [if_neg (Ne.symm h12), if_pos rfl]
  have e2 := rename_columns_cols (rename_columns c1 c2 df) h12 hc1'
  apply DataFrame.eq_of_parts
  · rw [e2, e1, List.map_map]
    have hid : ∀ a ∈ df.cols,
        ((fun c => if c = c1 then c2 else if c = c2 then c1 else c) ∘
          (fun c => if c = c1 then c2 else if c = c2 then c1 else c)) a = id a := by
      intro a _
      simp only [Function.comp, id]
      by_cases hA : a = c1
      · subst hA
        rw [if_pos rfl, if_neg (Ne.symm h12), if_pos rfl]
      · by_cases hB : a = c2
        · subst hB
          rw [if_neg hA, if_pos rfl, if_pos rfl]
        · rw [if_neg hA, if_neg hB, if_neg hA, if_neg hB]
    rw [List.map_congr_left hid, List.map_id]
  · rfl

/-- Witness for C8 at the same concrete table. -/
theorem C8_rename_involution_witness :
    ("Annual_yield" ≠ "Crop_type" ∧ "Annual_yield" ∈ sampleDF.cols ∧
      "Crop_type" ∈ sampleDF.cols) ∧
    rename_columns "Annual_yield" "Crop_type"
      (rename_columns "Annual_yield" "Crop_type" sampleDF) = sampleDF :=
  ⟨by decide, C8_rename_involution "Annual_yield" "Crop_type" sampleDF
    (by decide) (by decide) (by decide)⟩

/-- C5: the claim expects a `SchemaMismatchError` when a configured rename
column is missing, but pandas `rename` ignores dictionary keys that match
no label.  On a table lacking `Annual_yield` the code raises nothing and
is not even a no-op: the present `Crop_type` column is still relabeled to
`Annual_yield`.  This theorem evaluates the code at that failing input. -/
theorem C5_missing_column_is_silently_renamed :
    (rename_columns "Annual_yield" "Crop_type"
        { cols := ["Crop_type", "Elevation"],
          rows := [[Val.str "tea", Val.int 100]] }).cols =
      ["Annual_yield", "Elevation"] := by decide

theorem findIdx?_some_spec {α : Type} (p : α → Bool) :
    ∀ (l : List α) (i : Nat), List.findIdx? p l = some i →
      ∃ a, l[i]? = some a ∧ p a = true := by
  intro l
  induction l with
  | nil => intro i h; cases h
  | cons b l ih =>
    intro i h
    rw [List.findIdx?_cons] at h
    by_cases hb : p b = true
    · rw [if_pos hb] at h
      injection h with h2
      subst h2
      exact ⟨b, List.getElem?_cons_zero, hb⟩
    · rw [if_neg hb, List.findIdx?_succ] at h
      rcases Option.map_eq_some'.mp h with ⟨j, hj, hij⟩
      subst hij
      rcases ih j hj with ⟨a, ha, hpa⟩
      exact ⟨a, by rw [List.getElem?_cons_succ]; exact ha, hpa⟩

theorem mapCell_getD_name {cols : List String} {name : String} {f : Val → Val}
    {row : List Val} {i : Nat} (hc : cols[i]? = some name) (hr : i < row.length) :
    (mapCell cols name f row).getD i Val.null = f (row.getD i Val.null) := by
  rw [List.getD_eq_getElem?_getD, List.getD_eq_getElem?_getD]
  unfold mapCell
  rw [List.getElem?_zipWith, hc, List.getElem?_eq_getElem hr]
  simp

theorem mapCell_getD_other {cols : List String} {name c : String} {f : Val → Val}
    {row : List Val} {i : Nat} (hc : cols[i]? = some c) (hne : c ≠ name)
    (hr : i < row.length) :
    (mapCell cols name f row).getD i Val.null = row.getD i Val.null := by
  rw [List.getD_eq_getElem?_getD, List.getD_eq_getElem?_getD]
  unfold mapCell
  rw [List.getElem?_zipWith, hc, List.getElem?_eq_getElem hr]
  simp [hne]

theorem getCol_mapCell_self (df : DataFrame) (name : String) (f : Val → Val)
    (hrect : ∀ r ∈ df.rows, r.length = df.cols.length) :
    getCol ⟨df.cols, df.rows.map (mapCell df.cols name f)⟩ name =
      (getCol df name).map (List.map f) := by
  unfold getCol
  simp only
  cases hfi : df.cols.findIdx? (fun c => c == name) with
  | none => rfl
  | some i =>
    simp only [Option.map_some']
    congr 1
    rw [List.map_map, List.map_map]
    apply List.map_congr_left
    intro r hr
    simp only [Function.comp_apply]
    rcases findIdx?_some_spec _ _ _ hfi with ⟨a, ha, hpa⟩
    have han : a = name := by simpa using hpa
    subst han
    have hi : i < df.cols.length := (List.getElem?_eq_some_iff.mp ha).1
    have hri : i < r.length := by rw [hrect r hr]; exact hi
    exact mapCell_getD_name ha hri

theorem getCol_mapCell_other (df : DataFrame) (name : String) (f : Val → Val)
    (hrect : ∀ r ∈ df.rows, r.length = df.cols.length)
    (c : String) (hcn : c ≠ name) :
    getCol ⟨df.cols, df.rows.map (mapCell df.cols name f)⟩ c = getCol df c := by
  unfold getCol
  simp only
  cases hfi : df.cols.findIdx? (fun x => x == c) with
  | none => rfl
  | some i =>
    simp only [Option.map_some']
    congr 1
    rw [List.map_map]
    apply List.map_congr_left
    intro r hr
    simp only [Function.comp_apply]
    rcases findIdx?_some_spec _ _ _ hfi with ⟨a, ha, hpa⟩
    have hac : a = c := by simpa using hpa
    subst hac
    have hi : i < df.cols.length := (List.getElem?_eq_some_iff.mp ha).1
    have hri : i < r.length := by rw [hrect r hr]; exact hi
    exact mapCell_getD_other ha hcn hri

theorem mapCell_length (cols : List String) (name : String) (f : Val → Val)
    (row : List Val) : (mapCell cols name f row).length = min cols.length row.length :=
  List.length_zipWith _ _ _

theorem sign_correction_rect (ac : String) {df : DataFrame}
    (hrect : ∀ r ∈ df.rows, r.length = df.cols.length) :
    ∀ r ∈ (sign_correction ac df).rows, r.length = (sign_correction ac df).cols.length := by
  intro r hr
  rcases List.mem_map.mp hr with ⟨r0, hr0, hrw⟩
  subst hrw
  show (mapCell df.cols ac absVal r0).length = df.cols.length
  rw [mapCell_length, hrect r0 hr0]
  omega

theorem absVal_nonneg (v : Val) : ∀ n : Int, absVal v = Val.int n → 0 ≤ n := by
  intro n h
  cases v with
  | int k =>
    simp only [absVal] at h
    injection h with h2
    subst h2
    exact abs_nonneg k
  | str s => cases h
  | null => cases h

theorem absVal_fixed_of_nonneg (v : Val) (h : ∀ n : Int, v = Val.int n → 0 ≤ n) :
    absVal v = v := by
  cases v with
  | int k =>
    have hk : 0 ≤ k := h k rfl
    simp [absVal, abs_of_nonneg hk]
  | str s => rfl
  | null => rfl

theorem absVal_idem (v : Val) : absVal (absVal v) = absVal v := by
  cases v with
  | int k => simp [absVal, abs_abs]
  | str s => rfl
  | null => rfl

theorem lookup_mem : ∀ {m : List (Val × Val)} {v w : Val},
    m.lookup v = some w → (v, w) ∈ m := by
  intro m
  induction m with
  | nil => intro v w h; cases h
  | cons p m ih =>
    intro v w h
    cases p with
    | mk k x =>
      rw [List.lookup_cons] at h
      split at h
      · injection h with h2
        subst h2
        rename_i hvk
        have hv : v = k := eq_of_beq hvk
        subst hv
        exact List.mem_cons_self _ _
      · exact List.mem_cons_of_mem _ (ih h)

theorem applyMap_idem {m : List (Val × Val)}
    (hM : ∀ p ∈ m, m.lookup p.2 = none) (v : Val) :
    applyMap m (applyMap m v) = applyMap m v := by
  unfold applyMap
  cases hl : m.lookup v with
  | none => simp [hl]
  | some w =>
    have hw : m.lookup w = none := hM (v, w) (lookup_mem hl)
    simp [hl, hw]

theorem getCol_sign_correction_self (ac : String) (df : DataFrame)
    (hrect : ∀ r ∈ df.rows, r.length = df.cols.length) :
    getCol (sign_correction ac df) ac = (getCol df ac).map (List.map absVal) :=
  getCol_mapCell_self df ac absVal hrect

theorem getCol_sign_correction_other (ac : String) (df : DataFrame) (c : String)
    (hrect : ∀ r ∈ df.rows, r.length = df.cols.length) (hne : c ≠ ac) :
    getCol (sign_correction ac df) c = getCol df c :=
  getCol_mapCell_other df ac absVal hrect c hne

theorem getCol_value_correction_self (m : List (Val × Val)) (cn : String)
    (df : DataFrame) (hrect : ∀ r ∈ df.rows, r.length = df.cols.length) :
    getCol (value_correction m cn df) cn = (getCol df cn).map (List.map (applyMap m)) :=
  getCol_mapCell_self df cn (applyMap m) hrect

theorem getCol_value_correction_other (m : List (Val × Val)) (cn : String)
    (df : DataFrame) (c : String)
    (hrect : ∀ r ∈ df.rows, r.length = df.cols.length) (hne : c ≠ cn) :
    getCol (value_correction m cn df) c = getCol df c :=
  getCol_mapCell_other df cn (applyMap m) hrect c hne

/-- C3: after the numeric sign-correction step
(`self.df[abs_column] = self.df[abs_column].abs()`), every value in the
target column is the absolute value of the original — hence non-negative
wherever it is numeric — and every value that was already ≥ 0 is left
unchanged by the correction. -/
theorem C3_sign_correction_nonneg (ac : String) (df : DataFrame) (col : List Val)
    (hrect : ∀ r ∈ df.rows, r.length = df.cols.length)
    (hcol : getCol df ac = some col) :
    getCol (sign_correction ac df) ac = some (col.map absVal) ∧
    (∀ v ∈ col.map absVal, ∀ n : Int, v = Val.int n → 0 ≤ n) ∧
    (∀ v ∈ col, (∀ n : Int, v = Val.int n → 0 ≤ n) → absVal v = v) := by
  refine ⟨?_, ?_, ?_⟩
  · rw [getCol_sign_correction_self ac df hrect, hcol]
    rfl
  · intro v hv n hvn
    rcases List.mem_map.mp hv with ⟨w, _, hw⟩
    subst hw
    exact absVal_nonneg w n hvn
  · intro v _ hvp
    exact absVal_fixed_of_nonneg v hvp

/-- Witness for C3 at the sample table, whose `Elevation` column is
`[-5, 7, 0]`. -/
theorem C3_sign_correction_nonneg_witness :
    ((∀ r ∈ sampleDF.rows, r.length = sampleDF.cols.length) ∧
      getCol sampleDF "Elevation" = some [Val.int (-5), Val.int 7, Val.int 0]) ∧
    (getCol (sign_correction "Elevation" sampleDF) "Elevation" =
        some ([Val.int (-5), Val.int 7, Val.int 0].map absVal) ∧
      (∀ v ∈ [Val.int (-5), Val.int 7, Val.int 0].map absVal,
        ∀ n : Int, v = Val.int n → 0 ≤ n) ∧
      (∀ v ∈ [Val.int (-5), Val.int 7, Val.int 0],
        (∀ n : Int, v = Val.int n → 0 ≤ n) → absVal v = v)) :=
  ⟨⟨by decide, by decide⟩,
    C3_sign_correction_nonneg "Elevation" sampleDF
      [Val.int (-5), Val.int 7, Val.int 0] (by decide) (by decide)⟩

/-- C2 fails as stated: `apply_corrections` does not leave every cell
outside the categorical column unchanged — it also replaces the configured
numeric column by its absolute values.  On the sample table the
`Elevation` column (outside `Crop_type`) changes from `[-5, 7, 0]` to
`[5, 7, 0]`. -/
theorem C2_correct_values_counterexample :
    (apply_corrections sampleMap "Crop_type" "Elevation" sampleDF).map
        (fun d => getCol d "Elevation") ≠ some (getCol sampleDF "Elevation") := by
  decide

/-- C2 as amended: in the target column each cell is mapped through the
correction map (`M[v]` when `v` is a key, `v` otherwise); no cell outside
that column changes, except in the configured numeric column, whose cells
are replaced by their absolute values. -/
theorem C2_correct_values_amended (m : List (Val × Val)) (cn ac : String)
    (df : DataFrame) (hcn : cn ∈ df.cols) (hac : ac ∈ df.cols) (hne : cn ≠ ac)
    (hrect : ∀ r ∈ df.rows, r.length = df.cols.length) :
    ∃ df', apply_corrections m cn ac df = some df' ∧
      getCol df' cn = (getCol df cn).map (List.map (applyMap m)) ∧
      (∀ v w, m.lookup v = some w → applyMap m v = w) ∧
      (∀ v, m.lookup v = none → applyMap m v = v) ∧
      getCol df' ac = (getCol df ac).map (List.map absVal) ∧
      (∀ c, c ≠ cn → c ≠ ac → getCol df' c = getCol df c) := by
  have hrect2 := sign_correction_rect ac hrect
  have hsucc : apply_corrections m cn ac df =
      some (value_correction m cn (sign_correction ac df)) := by
    simp only [apply_corrections]
    rw [if_pos hac, if_pos (show cn ∈ (sign_correction ac df).cols from hcn)]
  refine ⟨value_correction m cn (sign_correction ac df), hsucc, ?_, ?_, ?_, ?_, ?_⟩
  · rw [getCol_value_correction_self m cn _ hrect2,
      getCol_sign_correction_other ac df cn hrect hne]
  · intro v w h
    unfold applyMap
    rw [h]
    rfl
  · intro v h
    unfold applyMap
    rw [h]
    rfl
  · rw [getCol_value_correction_other m cn _ ac hrect2 (Ne.symm hne),
      getCol_sign_correction_self ac df hrect]
  · intro c hccn hcac
    rw [getCol_value_correction_other m cn _ c hrect2 hccn,
      getCol_sign_correction_other ac df c hrect hcac]

/-- Witness for the amended C2 at the sample table and configured map. -/
theorem C2_correct_values_amended_witness :
    ("Crop_type" ∈ sampleDF.cols ∧ "Elevation" ∈ sampleDF.cols ∧
      ("Crop_type" : String) ≠ "Elevation" ∧
      (∀ r ∈ sampleDF.rows, r.length = sampleDF.cols.length)) ∧
    (∃ df', apply_corrections sampleMap "Crop_type" "Elevation" sampleDF = some df' ∧
      getCol df' "Crop_type" =
        (getCol sampleDF "Crop_type").map (List.map (applyMap sampleMap)) ∧
      (∀ v w, sampleMap.lookup v = some w → applyMap sampleMap v = w) ∧
      (∀ v, sampleMap.lookup v = none → applyMap sampleMap v = v) ∧
      getCol df' "Elevation" =
        (getCol sampleDF "Elevation").map (List.map absVal) ∧
      (∀ c, c ≠ "Crop_type" → c ≠ "Elevation" →
        getCol df' c = getCol sampleDF c)) :=
  ⟨⟨by decide, by decide, by decide, by decide⟩,
    C2_correct_values_amended sampleMap "Crop_type" "Elevation" sampleDF
      (by decide) (by decide) (by decide) (by decide)⟩

theorem corrections_row_idem (m : List (Val × Val)) (cn ac : String) (hne : cn ≠ ac)
    (hM : ∀ p ∈ m, m.lookup p.2 = none) :
    ∀ (cols : List String) (r : List Val),
      mapCell cols cn (applyMap m) (mapCell cols ac absVal
        (mapCell cols cn (applyMap m) (mapCell cols ac absVal r))) =
      mapCell cols cn (applyMap m) (mapCell cols ac absVal r) := by
  intro cols
  induction cols with
  | nil => intro r; rfl
  | cons c cols ih =>
    intro r
    cases r with
    | nil => rfl
    | cons v r =>
      simp only [mapCell, List.zipWith_cons_cons]
      refine congrArg₂ List.cons ?_ (ih r)
      by_cases h1 : c = cn
      · subst h1
        simp only [if_pos rfl, if_neg hne]
        exact applyMap_idem hM v
      · by_cases h2 : c = ac
        · subst h2
          simp only [if_pos rfl, if_neg h1]
          exact absVal_idem v
        · simp only [if_neg h1, if_neg h2]

/-- C9: with the configuration contract that no value of the correction
map is itself a key of the map, `apply_corrections` is idempotent —
running it a second time on its own output changes nothing (both the
value-map replacement and the absolute-value correction are stable). -/
theorem C9_apply_corrections_idempotent (m : List (Val × Val)) (cn ac : String)
    (df df' : DataFrame) (hne : cn ≠ ac)
    (hM : ∀ p ∈ m, m.lookup p.2 = none)
    (hdf : apply_corrections m cn ac df = some df') :
    apply_corrections m cn ac df' = some df' := by
  simp only [apply_corrections] at hdf
  by_cases hac : ac ∈ df.cols
  · rw [if_pos hac] at hdf
    by_cases hcn : cn ∈ (sign_correction ac df).cols
    · rw [if_pos hcn] at hdf
      injection hdf with h2
      subst h2
      simp only [apply_corrections]
      rw [if_pos (show ac ∈ (value_correction m cn (sign_correction ac df)).cols from hac),
        if_pos (show cn ∈
          (sign_correction ac (value_correction m cn (sign_correction ac df))).cols from hcn)]
      apply congrArg
      apply DataFrame.eq_of_parts
      · rfl
      show (((df.rows.map (mapCell df.cols ac absVal)).map
            (mapCell df.cols cn (applyMap m))).map (mapCell df.cols ac absVal)).map
          (mapCell df.cols cn (applyMap m)) =
        (df.rows.map (mapCell df.cols ac absVal)).map (mapCell df.cols cn (applyMap m))
      simp only [List.map_map]
      apply List.map_congr_left
      intro r _
      simp only [Function.comp_apply]
      exact corrections_row_idem m cn ac hne hM df.cols r
    · rw [if_neg hcn] at hdf
      cases hdf
  · rw [if_neg hac] at hdf
    cases hdf

/-- Witness for C9 at a concrete table: applying the corrections a second
time to the already corrected table returns it unchanged. -/
theorem C9_apply_corrections_idempotent_witness :
    (("Crop_type" : String) ≠ "Elevation" ∧
      (∀ p ∈ sampleMap, sampleMap.lookup p.2 = none) ∧
      apply_corrections sampleMap "Crop_type" "Elevation"
          ⟨["Crop_type", "Elevation"], [[Val.str "cassaval", Val.int (-5)]]⟩ =
        some ⟨["Crop_type", "Elevation"], [[Val.str "cassava", Val.int 5]]⟩) ∧
    apply_corrections sampleMap "Crop_type" "Elevation"
        ⟨["Crop_type", "Elevation"], [[Val.str "cassava", Val.int 5]]⟩ =
      some ⟨["Crop_type", "Elevation"], [[Val.str "cassava", Val.int 5]]⟩ :=
  ⟨⟨by decide, by decide, by decide⟩,
    C9_apply_corrections_idempotent sampleMap "Crop_type" "Elevation"
      ⟨["Crop_type", "Elevation"], [[Val.str "cassaval", Val.int (-5)]]⟩
      ⟨["Crop_type", "Elevation"], [[Val.str "cassava", Val.int 5]]⟩
      (by decide) (by decide) (by decide)⟩

/-- C6: when the Gateway query yields zero rows, `process` surfaces the
EmptyResultError kind before any transform step runs, and the pipeline's
table stays unset (still `None`, as `__init__` left it). -/
theorem C6_empty_query_aborts_process (c1 c2 : String) (m : List (Val × Val))
    (queryResult : DataFrame) (resource : Option DataFrame) (s : FDPState)
    (hq : queryResult.rows = []) (hs : s.df = none) :
    process c1 c2 m queryResult resource s = (s, some "EmptyResultError") ∧
    (process c1 c2 m queryResult resource s).1.df = none := by
  have hstep : ingest_step queryResult s = (s, some "EmptyResultError") := by
    unfold ingest_step query_data dfEmpty
    rw [hq]
    rfl
  have hp : process c1 c2 m queryResult resource s = (s, some "EmptyResultError") := by
    unfold process
    rw [hstep]
  refine ⟨hp, ?_⟩
  rw [hp]
  exact hs

/-- Witness for C6: an empty query result on a fresh pipeline state. -/
theorem C6_empty_query_aborts_process_witness :
    ((DataFrame.mk ["Field_ID"] []).rows = [] ∧
      (FDPState.mk none).df = none) ∧
    (process "Annual_yield" "Crop_type" sampleMap ⟨["Field_ID"], []⟩
        (some sampleWeather) ⟨none⟩ = (⟨none⟩, some "EmptyResultError") ∧
      (process "Annual_yield" "Crop_type" sampleMap ⟨["Field_ID"], []⟩
        (some sampleWeather) ⟨none⟩).1.df = none) :=
  ⟨⟨rfl, rfl⟩,
    C6_empty_query_aborts_process "Annual_yield" "Crop_type" sampleMap
      ⟨["Field_ID"], []⟩ (some sampleWeather) ⟨none⟩ rfl rfl⟩

/-- C7: when the fetched resource body is empty, the weather step raises
the MalformedResourceError kind and `process` returns with the table in
exactly the state `apply_corrections` produced — no rollback and no
partial merge (the fetch happens before any mutation of `self.df`). -/
theorem C7_empty_fetch_keeps_corrected_table (c1 c2 : String) (m : List (Val × Val))
    (queryResult : DataFrame) (s s1 s2 s3 : FDPState)
    (h1 : ingest_step queryResult s = (s1, none))
    (h2 : rename_step c1 c2 s1 = (s2, none))
    (h3 : corrections_step m "Crop_type" "Elevation" s2 = (s3, none)) :
    process c1 c2 m queryResult none s = (s3, some "MalformedResourceError") := by
  simp only [process, h1, h2, h3, weather_step, read_from_web_CSV]

/-- Witness for C7: a concrete run in which ingestion, the rename and the
corrections succeed and the fetch then returns an empty body. -/
theorem C7_empty_fetch_keeps_corrected_table_witness :
    (ingest_step sampleDF ⟨none⟩ = (⟨some sampleDF⟩, none) ∧
      rename_step "Annual_yield" "Crop_type" ⟨some sampleDF⟩ =
        (⟨some ⟨["Field_ID", "Crop_type", "Annual_yield", "Elevation"],
          sampleDF.rows⟩⟩, none) ∧
      corrections_step sampleMap "Crop_type" "Elevation"
          ⟨some ⟨["Field_ID", "Crop_type", "Annual_yield", "Elevation"],
            sampleDF.rows⟩⟩ =
        (⟨some ⟨["Field_ID", "Crop_type", "Annual_yield", "Elevation"],
          [[Val.int 1, Val.str "cassava", Val.int 100, Val.int 5],
           [Val.int 2, Val.str "tea", Val.int 200, Val.int 7],
           [Val.int 3, Val.str "wheat", Val.int 300, Val.int 0]]⟩⟩, none)) ∧
    process "Annual_yield" "Crop_type" sampleMap sampleDF none ⟨none⟩ =
      (⟨some ⟨["Field_ID", "Crop_type", "Annual_yield", "Elevation"],
        [[Val.int 1, Val.str "cassava", Val.int 100, Val.int 5],
         [Val.int 2, Val.str "tea", Val.int 200, Val.int 7],
         [Val.int 3, Val.str "wheat", Val.int 300, Val.int 0]]⟩⟩,
       some "MalformedResourceError") :=
  ⟨⟨by decide, by decide, by decide⟩,
    C7_empty_fetch_keeps_corrected_table "Annual_yield" "Crop_type" sampleMap
      sampleDF ⟨none⟩ ⟨some sampleDF⟩
      ⟨some ⟨["Field_ID", "Crop_type", "Annual_yield", "Elevation"], sampleDF.rows⟩⟩
      ⟨some ⟨["Field_ID", "Crop_type", "Annual_yield", "Elevation"],
        [[Val.int 1, Val.str "cassava", Val.int 100, Val.int 5],
         [Val.int 2, Val.str "tea", Val.int 200, Val.int 7],
         [Val.int 3, Val.str "wheat", Val.int 300, Val.int 0]]⟩⟩
      (by decide) (by decide) (by decide)⟩

/-- C10: `process` calls `apply_corrections` with no arguments, so the
corrections always target the Python defaults — the literal column names
'Crop_type' and 'Elevation' — for every configuration: if the post-rename
table lacks 'Elevation', `process` stops with a KeyError whatever the
configuration holds, and when both literal names are present the stage
hands the weather step a table in which exactly the 'Crop_type' column
went through the configured map, exactly the 'Elevation' column was
replaced by absolute values, and every other column is untouched. -/
theorem C10_corrections_use_default_columns (c1 c2 : String) (m : List (Val × Val))
    (queryResult : DataFrame) (resource : Option DataFrame) (s s1 s2 : FDPState)
    (d2 : DataFrame)
    (h1 : ingest_step queryResult s = (s1, none))
    (h2 : rename_step c1 c2 s1 = (s2, none))
    (hd : s2.df = some d2) :
    ("Elevation" ∉ d2.cols →
      process c1 c2 m queryResult resource s = (s2, some "KeyError")) ∧
    ("Elevation" ∈ d2.cols → "Crop_type" ∈ d2.cols →
      (∀ r ∈ d2.rows, r.length = d2.cols.length) →
      ∃ d3, process c1 c2 m queryResult resource s =
          weather_step resource ⟨some d3⟩ ∧
        getCol d3 "Crop_type" = (getCol d2 "Crop_type").map (List.map (applyMap m)) ∧
        getCol d3 "Elevation" = (getCol d2 "Elevation").map (List.map absVal) ∧
        (∀ c, c ≠ "Crop_type" → c ≠ "Elevation" → getCol d3 c = getCol d2 c)) := by
  constructor
  · intro hmiss
    have hstep : corrections_step m "Crop_type" "Elevation" s2 = (s2, some "KeyError") := by
      simp only [corrections_step, hd]
      rw [if_neg hmiss]
    simp only [process, h1, h2, hstep]
  · intro hElev hCrop hrect
    rcases C2_correct_values_amended m "Crop_type" "Elevation" d2 hCrop hElev
      (by decide) hrect with ⟨d3, hd3, hcn3, _, _, hac3, hother3⟩
    have hstep : corrections_step m "Crop_type" "Elevation" s2 =
        ({ df := some d3 }, none) := by
      simp only [corrections_step, hd]
      rw [if_pos hElev,
        if_pos (show "Crop_type" ∈ (sign_correction "Elevation" d2).cols from hCrop)]
      simp only [apply_corrections] at hd3
      rw [if_pos hElev,
        if_pos (show "Crop_type" ∈ (sign_correction "Elevation" d2).cols from hCrop)] at hd3
      injection hd3 with hval
      rw [hval]
    refine ⟨d3, ?_, hcn3, hac3, hother3⟩
    simp only [process, h1, h2, hstep]
    cases hweq : weather_step resource ({ df := some d3 } : FDPState) with
    | mk s4 e =>
      cases e <;> rfl

/-- Witness for C10 at a concrete run of the pipeline's first two steps. -/
theorem C10_corrections_use_default_columns_witness :
    (ingest_step sampleDF ⟨none⟩ = (⟨some sampleDF⟩, none) ∧
      rename_step "Annual_yield" "Crop_type" ⟨some sampleDF⟩ =
        (⟨some ⟨["Field_ID", "Crop_type", "Annual_yield", "Elevation"],
          sampleDF.rows⟩⟩, none) ∧
      (FDPState.mk (some ⟨["Field_ID", "Crop_type", "Annual_yield", "Elevation"],
        sampleDF.rows⟩)).df =
        some ⟨["Field_ID", "Crop_type", "Annual_yield", "Elevation"], sampleDF.rows⟩) ∧
    (("Elevation" ∉ (DataFrame.mk ["Field_ID", "Crop_type", "Annual_yield", "Elevation"]
        sampleDF.rows).cols →
      process "Annual_yield" "Crop_type" sampleMap sampleDF none ⟨none⟩ =
        (⟨some ⟨["Field_ID", "Crop_type", "Annual_yield", "Elevation"],
          sampleDF.rows⟩⟩, some "KeyError")) ∧
    ("Elevation" ∈ (DataFrame.mk ["Field_ID", "Crop_type", "Annual_yield", "Elevation"]
        sampleDF.rows).cols →
      "Crop_type" ∈ (DataFrame.mk ["Field_ID", "Crop_type", "Annual_yield", "Elevation"]
        sampleDF.rows).cols →
      (∀ r ∈ (DataFrame.mk ["Field_ID", "Crop_type", "Annual_yield", "Elevation"]
        sampleDF.rows).rows,
        r.length = (DataFrame.mk ["Field_ID", "Crop_type", "Annual_yield", "Elevation"]
          sampleDF.rows).cols.length) →
      ∃ d3, process "Annual_yield" "Crop_type" sampleMap sampleDF none ⟨none⟩ =
          weather_step none ⟨some d3⟩ ∧
        getCol d3 "Crop_type" =
          (getCol ⟨["Field_ID", "Crop_type", "Annual_yield", "Elevation"],
            sampleDF.rows⟩ "Crop_type").map (List.map (applyMap sampleMap)) ∧
        getCol d3 "Elevation" =
          (getCol ⟨["Field_ID", "Crop_type", "Annual_yield", "Elevation"],
            sampleDF.rows⟩ "Elevation").map (List.map absVal) ∧
        (∀ c, c ≠ "Crop_type" → c ≠ "Elevation" →
          getCol d3 c = getCol ⟨["Field_ID", "Crop_type", "Annual_yield", "Elevation"],
            sampleDF.rows⟩ c))) :=
  ⟨⟨by decide, by decide, rfl⟩,
    C10_corrections_use_default_columns "Annual_yield" "Crop_type" sampleMap sampleDF
      none ⟨none⟩ ⟨some sampleDF⟩
      ⟨some ⟨["Field_ID", "Crop_type", "Annual_yield", "Elevation"], sampleDF.rows⟩⟩
      ⟨["Field_ID", "Crop_type", "Annual_yield", "Elevation"], sampleDF.rows⟩
      (by decide) (by decide) rfl⟩

theorem map_eq_self_of_eq {α : Type} {f : α → α} {l : List α}
    (h : ∀ c ∈ l, f c = c) : l.map f = l := by
  calc l.map f = l.map id := List.map_congr_left (fun a ha => h a ha)
  _ = l := List.map_id l

theorem length_le_length_flatten {α β : Type} (f : α → List β) :
    ∀ l : List α, (∀ x ∈ l, 1 ≤ (f x).length) → l.length ≤ (l.map f).flatten.length := by
  intro l
  induction l with
  | nil => intro _; exact Nat.le_refl 0
  | cons x l ih =>
    intro h
    rw [List.map_cons, List.flatten_cons, List.length_cons, List.length_append]
    have h1 := h x (List.mem_cons_self x l)
    have h2 := ih (fun y hy => h y (List.mem_cons_of_mem x hy))
    omega

theorem mem_flatten_map {α β : Type} (f : α → List β) {l : List α} {a : α}
    (ha : a ∈ l) {b : β} (hb : b ∈ f a) : b ∈ (l.map f).flatten :=
  List.mem_flatten.mpr ⟨f a, List.mem_map_of_mem f ha, hb⟩

theorem merge_cols_eq (left right : DataFrame) (key : String) :
    (merge left right key).cols = left.cols.map
        (fun c => if !(c == key) && right.cols.contains c then c ++ "_x" else c)
      ++ (right.cols.filter (fun c => !(c == key))).map
        (fun c => if left.cols.contains c then c ++ "_y" else c) := rfl

theorem merge_rows_eq (left right : DataFrame) (key : String) :
    (merge left right key).rows = (left.rows.map (fun r =>
      if (right.rows.filter (fun rr =>
          cellAt right.cols rr key == cellAt left.cols r key)).isEmpty then
        [r ++ List.replicate
          (right.cols.filter (fun c => !(c == key))).length Val.null]
      else (right.rows.filter (fun rr =>
          cellAt right.cols rr key == cellAt left.cols r key)).map
        (fun rr => r ++ nonKeyCells right.cols key rr))).flatten := rfl

/-- C4: the left merge on `Field_ID` keeps at least as many rows as the
current table, the output columns are the original columns followed by the
mapping table's non-key columns (given no overlap beyond the key), every
original row reappears as a left segment of some output row, and a row
whose `Field_ID` matches nothing in the mapping table reappears padded
with nulls in every enrichment column. -/
theorem C4_merge_left_join (left right : DataFrame)
    (hkL : "Field_ID" ∈ left.cols) (hkR : "Field_ID" ∈ right.cols)
    (hdisj : ∀ c, c ∈ left.cols → c ∈ right.cols → c = "Field_ID")
    (hrect : ∀ r ∈ left.rows, r.length = left.cols.length) :
    left.rows.length ≤ (merge left right "Field_ID").rows.length ∧
    (merge left right "Field_ID").cols =
      left.cols ++ right.cols.filter (fun c => !(c == "Field_ID")) ∧
    (∀ r ∈ left.rows, ∃ t, (r ++ t) ∈ (merge left right "Field_ID").rows ∧
      (r ++ t).take left.cols.length = r) ∧
    (∀ r ∈ left.rows,
      (∀ rr ∈ right.rows,
        cellAt right.cols rr "Field_ID" ≠ cellAt left.cols r "Field_ID") →
      r ++ List.replicate
          (right.cols.filter (fun c => !(c == "Field_ID"))).length Val.null ∈
        (merge left right "Field_ID").rows) := by
  refine ⟨?_, ?_, ?_, ?_⟩
  · rw [merge_rows_eq]
    apply length_le_length_flatten
    intro r hr
    show 1 ≤ (if (right.rows.filter (fun rr =>
        cellAt right.cols rr "Field_ID" == cellAt left.cols r "Field_ID")).isEmpty then
      [r ++ List.replicate
        (right.cols.filter (fun c => !(c == "Field_ID"))).length Val.null]
    else (right.rows.filter (fun rr =>
        cellAt right.cols rr "Field_ID" == cellAt left.cols r "Field_ID")).map
      (fun rr => r ++ nonKeyCells right.cols "Field_ID" rr)).length
    by_cases hms : (right.rows.filter (fun rr =>
        cellAt right.cols rr "Field_ID" == cellAt left.cols r "Field_ID")).isEmpty
    · rw [if_pos hms]
      exact Nat.le_refl 1
    · rw [if_neg hms, List.length_map]
      have hne : right.rows.filter (fun rr =>
          cellAt right.cols rr "Field_ID" == cellAt left.cols r "Field_ID") ≠ [] := by
        intro hnil
        rw [hnil] at hms
        exact hms rfl
      have := List.length_pos.mpr hne
      omega
  · rw [merge_cols_eq]
    have hL : left.cols.map
        (fun c => if !(c == "Field_ID") && right.cols.contains c then c ++ "_x" else c) =
        left.cols := by
      apply map_eq_self_of_eq
      intro c hc
      by_cases hkey : c = "Field_ID"
      · subst hkey
        simp
      · simp
        intro h1 h2
        exact absurd (hdisj c hc h2) h1
    have hR : (right.cols.filter (fun c => !(c == "Field_ID"))).map
        (fun c => if left.cols.contains c then c ++ "_y" else c) =
        right.cols.filter (fun c => !(c == "Field_ID")) := by
      apply map_eq_self_of_eq
      intro c hc
      rcases List.mem_filter.mp hc with ⟨hcr, hcne⟩
      have hkey : c ≠ "Field_ID" := by simpa using hcne
      simp
      intro h2
      exact absurd (hdisj c h2 hcr) hkey
    rw [hL, hR]
  · intro r hr
    by_cases hms : (right.rows.filter (fun rr =>
        cellAt right.cols rr "Field_ID" == cellAt left.cols r "Field_ID")).isEmpty
    · refine ⟨List.replicate
          (right.cols.filter (fun c => !(c == "Field_ID"))).length Val.null, ?_, ?_⟩
      · rw [merge_rows_eq]
        apply mem_flatten_map _ hr
        show r ++ _ ∈ (if (right.rows.filter (fun rr =>
            cellAt right.cols rr "Field_ID" == cellAt left.cols r "Field_ID")).isEmpty then
          [r ++ List.replicate
            (right.cols.filter (fun c => !(c == "Field_ID"))).length Val.null]
        else (right.rows.filter (fun rr =>
            cellAt right.cols rr "Field_ID" == cellAt left.cols r "Field_ID")).map
          (fun rr => r ++ nonKeyCells right.cols "Field_ID" rr))
        rw [if_pos hms]
        exact List.mem_singleton.mpr rfl
      · rw [← hrect r hr]
        exact List.take_left r _
    · have hne : right.rows.filter (fun rr =>
          cellAt right.cols rr "Field_ID" == cellAt left.cols r "Field_ID") ≠ [] := by
        intro hnil
        rw [hnil] at hms
        exact hms rfl
      rcases List.exists_mem_of_ne_nil _ hne with ⟨rr, hrr⟩
      refine ⟨nonKeyCells right.cols "Field_ID" rr, ?_, ?_⟩
      · rw [merge_rows_eq]
        apply mem_flatten_map _ hr
        show r ++ _ ∈ (if (right.rows.filter (fun rb =>
            cellAt right.cols rb "Field_ID" == cellAt left.cols r "Field_ID")).isEmpty then
          [r ++ List.replicate
            (right.cols.filter (fun c => !(c == "Field_ID"))).length Val.null]
        else (right.rows.filter (fun rb =>
            cellAt right.cols rb "Field_ID" == cellAt left.cols r "Field_ID")).map
          (fun rb => r ++ nonKeyCells right.cols "Field_ID" rb))
        rw [if_neg hms]
        exact List.mem_map_of_mem _ hrr
      · rw [← hrect r hr]
        exact List.take_left r _
  · intro r hr hnom
    have hms : (right.rows.filter (fun rr =>
        cellAt right.cols rr "Field_ID" == cellAt left.cols r "Field_ID")).isEmpty = true := by
      rw [List.isEmpty_iff]
      apply List.filter_eq_nil_iff.mpr
      intro rr hrrmem hbeq
      exact hnom rr hrrmem (eq_of_beq hbeq)
    rw [merge_rows_eq]
    apply mem_flatten_map _ hr
    show r ++ _ ∈ (if (right.rows.filter (fun rr =>
        cellAt right.cols rr "Field_ID" == cellAt left.cols r "Field_ID")).isEmpty then
      [r ++ List.replicate
        (right.cols.filter (fun c => !(c == "Field_ID"))).length Val.null]
    else (right.rows.filter (fun rr =>
        cellAt right.cols rr "Field_ID" == cellAt left.cols r "Field_ID")).map
      (fun rr => r ++ nonKeyCells right.cols "Field_ID" rr))
    rw [if_pos hms]
    exact List.mem_singleton.mpr rfl

/-- Witness for C4 at the sample tables (`Field_ID` 3 has no match in the
weather mapping). -/
theorem C4_merge_left_join_witness :
    ("Field_ID" ∈ sampleDF.cols ∧ "Field_ID" ∈ sampleWeather.cols ∧
      (∀ c, c ∈ sampleDF.cols → c ∈ sampleWeather.cols → c = "Field_ID") ∧
      (∀ r ∈ sampleDF.rows, r.length = sampleDF.cols.length)) ∧
    (sampleDF.rows.length ≤ (merge sampleDF sampleWeather "Field_ID").rows.length ∧
      (merge sampleDF sampleWeather "Field_ID").cols =
        sampleDF.cols ++ sampleWeather.cols.filter (fun c => !(c == "Field_ID")) ∧
      (∀ r ∈ sampleDF.rows, ∃ t,
        (r ++ t) ∈ (merge sampleDF sampleWeather "Field_ID").rows ∧
        (r ++ t).take sampleDF.cols.length = r) ∧
      (∀ r ∈ sampleDF.rows,
        (∀ rr ∈ sampleWeather.rows,
          cellAt sampleWeather.cols rr "Field_ID" ≠ cellAt sampleDF.cols r "Field_ID") →
        r ++ List.replicate
            (sampleWeather.cols.filter (fun c => !(c == "Field_ID"))).length Val.null ∈
          (merge sampleDF sampleWeather "Field_ID").rows)) :=
  ⟨⟨by decide, by decide, by decide, by decide⟩,
    C4_merge_left_join sampleDF sampleWeather
      (by decide) (by decide) (by decide) (by decide)⟩
